import Mathlib

/-!
Verification of the TempDLM ingestion-and-deletion lifecycle engine.

The definitions below are a shallow embedding of the TypeScript sources:
  - `src/shared/types.ts`  (QueueItem, WhitelistRule, statuses)
  - `src/main/store.ts`    (queue store: get / patch / upsert / remove)
  - `src/main/deletionEngine.ts' listing (isFileLocked, attemptDeletion,
    scheduleItem, cancelItem, snoozeItem, reconcileOnStartup,
    waitForConfirmation, resolveConfirmation)
  - `src/main/fileWatcher.ts'   (matchWhitelistRule, handleNewFile,
    handleFileUnlinked and the rename-window expiry callback)

Timestamps are Unix milliseconds as `Nat`.  JavaScript `Date.now()` is
modelled by an explicit clock value carried in the environment of each
operation.  `setTimeout`-based timers (the rename window) are modelled as
explicit transitions that are enabled while the corresponding table entry
is alive.  External effects (spawned probes, `fs` calls, the `trash`
primitive, user responses) are modelled as oracle fields of an
environment record; IPC events sent to the renderer are accumulated in an
event log, OS toast notifications in a separate toast log, and calls to
the trash primitive in a trash-call log.
-/

namespace TempDLM

/-- `QueueItemStatus` from `src/shared/types.ts`. -/
inductive Status
  | pending
  | scheduled
  | snoozed
  | confirming
  | deleting
  | deleted
  | failed
  | whitelisted
deriving DecidableEq, Repr

/-- `QueueItem` from `src/shared/types.ts`.  `scheduledFor = none` means
"never delete"; `error` is populated only in the `failed` status. -/
structure QueueItem where
  id : String
  filePath : String
  fileName : String
  fileSize : Nat
  fileExtension : String
  inode : Nat
  detectedAt : Nat
  scheduledFor : Option Nat
  status : Status
  snoozeCount : Nat
  clusterId : Option String
  error : Option String
deriving DecidableEq, Repr

/-- `WhitelistRuleType` from `src/shared/types.ts`. -/
inductive RuleType
  | extension
  | filename
  | pattern
deriving DecidableEq, Repr

/-- `WhitelistAction` from `src/shared/types.ts`. -/
inductive RuleAction
  | neverDelete
  | autoDeleteAfter
deriving DecidableEq, Repr

/-- `WhitelistRule` from `src/shared/types.ts`. -/
structure WhitelistRule where
  id : String
  type : RuleType
  value : String
  action : RuleAction
  autoDeleteMinutes : Option Nat
  enabled : Bool
deriving DecidableEq, Repr

/-- The slice of `UserSettings` read by the modelled code
(`fileWatcher.ts` and the notification helpers of `deletionEngine.ts`). -/
structure Settings where
  showNotifications : Bool
  whitelistRules : List WhitelistRule
deriving DecidableEq, Repr

/-- A partial `QueueItem` as passed to `patchQueueItem` (TypeScript
`Partial<QueueItem>` restricted to the fields the sources actually patch).
`some v` means the field is present in the patch object. -/
structure ItemPatch where
  filePath : Option String := none
  fileName : Option String := none
  fileExtension : Option String := none
  fileSize : Option Nat := none
  scheduledFor : Option (Option Nat) := none
  status : Option Status := none
  snoozeCount : Option Nat := none
  error : Option (Option String) := none
deriving DecidableEq, Repr

/-- The TypeScript spread `{ ...item, ...patch }`: fields present in the
patch overwrite the item's fields. -/
def applyPatch (p : ItemPatch) (i : QueueItem) : QueueItem :=
  { id := i.id
    filePath := p.filePath.getD i.filePath
    fileName := p.fileName.getD i.fileName
    fileSize := p.fileSize.getD i.fileSize
    fileExtension := p.fileExtension.getD i.fileExtension
    inode := i.inode
    detectedAt := i.detectedAt
    scheduledFor := p.scheduledFor.getD i.scheduledFor
    status := p.status.getD i.status
    snoozeCount := p.snoozeCount.getD i.snoozeCount
    clusterId := i.clusterId
    error := p.error.getD i.error }

@[simp]
theorem applyPatch_id (p : ItemPatch) (i : QueueItem) : (applyPatch p i).id = i.id := rfl

-- ─── Store (src/main/store.ts) ───────────────────────────────────────────────

/-- `getQueueItem` from `store.ts`: first item with the given id. -/
def getQueueItem (q : List QueueItem) (itemId : String) : Option QueueItem :=
  q.find? (fun i => i.id == itemId)

/-- `patchQueueItem` from `store.ts`: `findIndex` then replace in place
(replace-first); a miss leaves the queue unchanged. -/
def patchQueueItem (q : List QueueItem) (itemId : String) (p : ItemPatch) :
    List QueueItem :=
  match q with
  | [] => []
  | i :: rest =>
    if i.id == itemId then applyPatch p i :: rest
    else i :: patchQueueItem rest itemId p

/-- `upsertQueueItem` from `store.ts`: replace in place if the id exists,
otherwise `unshift` (newest first). -/
def upsertQueueItem (q : List QueueItem) (item : QueueItem) : List QueueItem :=
  match q with
  | [] => [item]
  | i :: rest =>
    if i.id == item.id then item :: rest
    else i :: upsertQueueItem rest item

/-- `removeQueueItem` from `store.ts`: `filter` keeps every item whose id
differs. -/
def removeQueueItem (q : List QueueItem) (itemId : String) : List QueueItem :=
  q.filter (fun i => !(i.id == itemId))

-- ─── Store lemmas ────────────────────────────────────────────────────────────

theorem getQueueItem_patchQueueItem (q : List QueueItem) (itemId : String) (p : ItemPatch) :
    getQueueItem (patchQueueItem q itemId p) itemId =
      (getQueueItem q itemId).map (applyPatch p) := by
  induction q with
  | nil => rfl
  | cons i rest ih =>
    by_cases h : i.id = itemId
    · have hb : (i.id == itemId) = true := by simp [h]
      simp only [patchQueueItem, hb, if_true, getQueueItem]
      rw [List.find?_cons_of_pos _ (by simpa using hb),
        List.find?_cons_of_pos _ (by simpa using hb)]
      rfl
    · have hb : (i.id == itemId) = false := by simp [h]
      simp only [patchQueueItem, hb, Bool.false_eq_true, if_false, getQueueItem] at ih ⊢
      rw [List.find?_cons_of_neg _ (by simp [h]),
        List.find?_cons_of_neg _ (by simp [h]), ih]

theorem getQueueItem_upsertQueueItem (q : List QueueItem) (item : QueueItem) :
    getQueueItem (upsertQueueItem q item) item.id = some item := by
  induction q with
  | nil => simp [getQueueItem, upsertQueueItem]
  | cons i rest ih =>
    by_cases h : i.id = item.id
    · have hb : (i.id == item.id) = true := by simp [h]
      simp only [upsertQueueItem, hb, if_true, getQueueItem]
      rw [List.find?_cons_of_pos _ (by simp)]
    · have hb : (i.id == item.id) = false := by simp [h]
      simp only [upsertQueueItem, hb, Bool.false_eq_true, if_false, getQueueItem] at ih ⊢
      rw [List.find?_cons_of_neg _ (by simp [h]), ih]

theorem getQueueItem_removeQueueItem (q : List QueueItem) (itemId : String) :
    getQueueItem (removeQueueItem q itemId) itemId = none := by
  rw [getQueueItem, List.find?_eq_none]
  intro i hi
  simp only [removeQueueItem, List.mem_filter] at hi
  simpa using hi.2

-- ─── Tier-1 lock probe (deletionEngine.ts, isFileLocked) ────────────────────

/-- Oracle for one `isFileLocked` invocation.  `spawnError` models
`spawnSync(...)` returning `result.error` (PowerShell binary missing,
spawn failure, or the 5000ms timeout killing the child); `exitStatus`
models `result.status` when the invocation completed; the two rename
flags model whether each `fs.renameSync` of the fallback probe succeeds. -/
structure Tier1Env where
  spawnError : Bool
  exitStatus : Int
  renameToTmpOk : Bool
  renameBackOk : Bool
deriving DecidableEq, Repr

/-- `isFileLocked` from `deletionEngine.ts`: run the Restart-Manager
PowerShell probe; if `result.error` is set fall back to the rename probe
(rename to a sibling temp name and back, inside try/catch: both renames
succeeding yields unlocked, any failure yields locked); otherwise report
locked exactly when the exit status is non-zero. -/
def isFileLocked (e : Tier1Env) : Bool :=
  if e.spawnError then
    if e.renameToTmpOk && e.renameBackOk then false else true
  else
    e.exitStatus != 0

/-- Modelled from the claim's words (refinement comparison only): the
probe degrades to the rename fallback whenever the facility "fails" —
including an unexpected non-zero exit status (the script deliberately
exits 0 for unlocked and 1 for locked, so any other status is
unexpected). -/
def isFileLockedClaimed (e : Tier1Env) : Bool :=
  if e.spawnError || (e.exitStatus != 0 && e.exitStatus != 1) then
    if e.renameToTmpOk && e.renameBackOk then false else true
  else
    e.exitStatus != 0

-- ─── Path helpers (path.win32 as used by fileWatcher.ts) ─────────────────────

/-- `path.win32.basename`: the suffix after the last path separator. -/
def winBasename (p : String) : String :=
  String.mk (p.toList.foldl
    (fun acc c => if c == '/' || c == '\\' then [] else acc ++ [c]) [])

/-- `path.win32.extname` on a base name: the substring from the last dot
to the end, except that a name with no dot, or whose only dot is the
leading character (dotfile), has extension `""`. -/
def winExtname (name : String) : String :=
  let cs := name.toList
  let dotIdxs := (cs.enum.filter (fun pr => pr.2 == '.')).map (fun pr => pr.1)
  match dotIdxs.getLast? with
  | none => ""
  | some 0 => ""
  | some i => String.mk (cs.drop i)

-- ─── Whitelist matching (fileWatcher.ts, matchWhitelistRule) ─────────────────

/-- The loop body of `matchWhitelistRule`: skip disabled rules, return the
first rule whose extension or exact filename comparison hits. -/
def matchRuleLoop (ext base : String) : List WhitelistRule → Option WhitelistRule
  | [] => none
  | rule :: rest =>
    if !rule.enabled then matchRuleLoop ext base rest
    else if rule.type == .extension && ext == rule.value.toLower then some rule
    else if rule.type == .filename && base == rule.value.toLower then some rule
    else matchRuleLoop ext base rest

/-- `matchWhitelistRule` from `fileWatcher.ts`: lowercase the extension
and base name of the file, then scan the rules in list order. -/
def matchWhitelistRule (fileName : String) (rules : List WhitelistRule) :
    Option WhitelistRule :=
  matchRuleLoop (winExtname fileName).toLower (winBasename fileName).toLower rules

/-- A single rule fires for the given (lower-cased) extension and base. -/
def ruleHit (ext base : String) (rule : WhitelistRule) : Bool :=
  rule.enabled &&
    ((rule.type == .extension && ext == rule.value.toLower) ||
     (rule.type == .filename && base == rule.value.toLower))

theorem matchRuleLoop_cons (ext base : String) (rule : WhitelistRule)
    (rest : List WhitelistRule) :
    matchRuleLoop ext base (rule :: rest) =
      if ruleHit ext base rule then some rule else matchRuleLoop ext base rest := by
  by_cases he : rule.enabled
  · simp only [matchRuleLoop, ruleHit, he, Bool.not_true, Bool.true_and,
      Bool.false_eq_true, if_false]
    by_cases h1 : (rule.type == RuleType.extension && ext == rule.value.toLower) = true
    · simp [h1]
    · simp only [Bool.not_eq_true] at h1
      simp [h1]
  · simp only [Bool.not_eq_true] at he
    simp [matchRuleLoop, ruleHit, he]

theorem matchRuleLoop_first_hit (ext base : String) (pre post : List WhitelistRule)
    (rule : WhitelistRule) (hpre : ∀ r ∈ pre, ruleHit ext base r = false)
    (hr : ruleHit ext base rule = true) :
    matchRuleLoop ext base (pre ++ rule :: post) = some rule := by
  induction pre with
  | nil => simp [matchRuleLoop_cons, hr]
  | cons r rest ih =>
    have h0 : ruleHit ext base r = false := hpre r (by simp)
    rw [List.cons_append, matchRuleLoop_cons, if_neg (by simp [h0])]
    exact ih (fun r' hr' => hpre r' (by simp [hr']))

-- ─── World state ─────────────────────────────────────────────────────────────

/-- `'delete' | 'keep'`, the confirmation decisions. -/
inductive Decision
  | delete
  | keep
deriving DecidableEq, Repr

/-- IPC events sent to the renderer (`IPC_EVENTS`), with the payload
parts relevant here. -/
inductive Event
  | fileNew (itemId : String)
  | fileDeleted (itemId : String)
  | fileInUse (itemId : String)
  | confirmDelete (itemId : String) (processNames : List String)
      (timeoutMs : Nat) (confirmationStartedAt : Nat)
  | queueUpdated
deriving DecidableEq, Repr

/-- OS toast notifications (Electron `Notification`), a channel separate
from renderer IPC events. -/
inductive Toast
  | snoozeToast (itemId : String)
  | confirmOpenToast (itemId : String)
  | newFileToast (itemId : String)
deriving DecidableEq, Repr

/-- Combined mutable state of the main process: the persisted queue, the
scheduler's job map (`itemId -> fireAt`, active jobs only: `Job.cancel()`
is modelled as removal), the pending-confirmation key set, the
rename-reconciliation table (`inode -> itemId`), the debounce key set,
and the observable side-effect logs (renderer events, toasts, trash
invocations, confirmation resolutions, `setTimeout` firings queued by
startup reconciliation as `(itemId, delayMs)`). -/
structure World where
  queue : List QueueItem
  jobs : List (String × Nat)
  pendingConfirmations : List String
  renameTable : List (Nat × String)
  debounce : List String
  settings : Settings
  events : List Event
  toasts : List Toast
  trashCalls : List String
  resolutions : List (String × Decision)
  overdueFirings : List (String × Nat)
deriving DecidableEq, Repr

/-- Lookup in the scheduler job map. -/
def jobsLookup (jobs : List (String × Nat)) (itemId : String) : Option Nat :=
  (jobs.find? (fun e => e.1 == itemId)).map (fun e => e.2)

/-- `Map.delete` on the scheduler job map (also models cancelling the
stored `Job`). -/
def jobsRemove (jobs : List (String × Nat)) (itemId : String) : List (String × Nat) :=
  jobs.filter (fun e => !(e.1 == itemId))

/-- Lookup in the rename-reconciliation table. -/
def renameLookup (t : List (Nat × String)) (ino : Nat) : Option String :=
  (t.find? (fun e => e.1 == ino)).map (fun e => e.2)

/-- `Map.delete` on the rename-reconciliation table. -/
def renameRemove (t : List (Nat × String)) (ino : Nat) : List (Nat × String) :=
  t.filter (fun e => !(e.1 == ino))

-- ─── Scheduler (deletionEngine.ts, scheduleJobAt) ────────────────────────────

/-- `scheduleJobAt`: cancel any existing job for the item, then install a
one-shot job firing at `fireAt`.  `node-schedule` returns `null` for a
date not in the future, in which case no job is installed. -/
def scheduleJobAt (w : World) (itemId : String) (fireAt now : Nat) : World :=
  let cancelled := jobsRemove w.jobs itemId
  if now < fireAt then { w with jobs := (itemId, fireAt) :: cancelled }
  else { w with jobs := cancelled }

-- ─── Confirmation broker (deletionEngine.ts) ─────────────────────────────────

/-- The resolution of `waitForConfirmation`: an explicit user response if
one arrives before the timeout, else the `setTimeout` default `delete`. -/
def confirmationOutcome (userResponse : Option Decision) : Decision :=
  userResponse.getD Decision.delete

/-- `resolveConfirmation` from `deletionEngine.ts`: a no-op unless a
request is pending for the id; otherwise clear the pending entry and
resolve its promise with the decision (logged in `resolutions`). -/
def resolveConfirmation (w : World) (itemId : String) (decision : Decision) : World :=
  if w.pendingConfirmations.contains itemId then
    { w with
      pendingConfirmations := w.pendingConfirmations.filter (fun i => !(i == itemId))
      resolutions := w.resolutions ++ [(itemId, decision)] }
  else w

-- ─── Notification helpers (deletionEngine.ts) ────────────────────────────────

/-- `showSnoozeNotification`: suppressed when notifications are disabled,
unsupported, or the main window is visible. -/
def showSnoozeNotification (w : World) (notifSupported winVisible : Bool)
    (itemId : String) : World :=
  if w.settings.showNotifications && notifSupported && !winVisible then
    { w with toasts := w.toasts ++ [Toast.snoozeToast itemId] }
  else w

/-- `showConfirmDeleteNotification`: suppressed when notifications are
disabled or unsupported (no visibility check). -/
def showConfirmDeleteNotification (w : World) (notifSupported : Bool)
    (itemId : String) : World :=
  if w.settings.showNotifications && notifSupported then
    { w with toasts := w.toasts ++ [Toast.confirmOpenToast itemId] }
  else w

-- ─── Constants (deletionEngine.ts / fileWatcher.ts) ──────────────────────────

def SNOOZE_MINUTES : Nat := 10
def MAX_SNOOZE_COUNT : Nat := 3
def CONFIRM_TIMEOUT_MS : Nat := 15000
def MAX_DISPLAY_PROCS : Nat := 3
def DEBOUNCE_MS : Nat := 500
def RENAME_WINDOW_MS : Nat := 3000

-- ─── Deletion attempt (deletionEngine.ts, attemptDeletion) ───────────────────

/-- Oracle for one firing of `attemptDeletion`: the clock reading for
`Date.now()`, the results of `fs.existsSync`, `isFileLocked` and
`isFileInWindowTitle` for the item's path/name, the user's confirmation
response (`none` = no response before the 15s timeout), whether the
`trash` call succeeds and with what error message it rejects otherwise,
and the notification-environment flags. -/
structure FireEnv where
  now : Nat
  fileExists : Bool
  locked : Bool
  windowMatches : List String
  userResponse : Option Decision
  trashOk : Bool
  trashError : String
  notifSupported : Bool
  winVisible : Bool
deriving DecidableEq, Repr

/-- The capped display list built in step 3 of `attemptDeletion`: at most
`MAX_DISPLAY_PROCS` names, with an "…and N more" suffix when more
matched. -/
def processNamesForDialog (matchingProcesses : List String) : List String :=
  let displayedProcesses := matchingProcesses.take MAX_DISPLAY_PROCS
  let extraCount := matchingProcesses.length - displayedProcesses.length
  if 0 < extraCount then
    displayedProcesses ++ ["…and " ++ toString extraCount ++ " more"]
  else displayedProcesses

/-- The snooze path shared by step 2 and the trash-failure handler of
`attemptDeletion`: patch to `snoozed` with the new counter and a deadline
`SNOOZE_MINUTES` from now, emit `file:in-use` and `queue:updated`, show
the snooze toast, reschedule the job. -/
def snoozeAndReschedule (env : FireEnv) (w : World) (itemId : String)
    (newSnoozeCount : Nat) : World :=
  let snoozedUntil := env.now + SNOOZE_MINUTES * 60 * 1000
  let w1 := { w with
    queue := patchQueueItem w.queue itemId
      { status := some .snoozed, snoozeCount := some newSnoozeCount,
        scheduledFor := some (some snoozedUntil) }
    events := w.events ++ [Event.fileInUse itemId, Event.queueUpdated] }
  let w2 := showSnoozeNotification w1 env.notifSupported env.winVisible itemId
  scheduleJobAt w2 itemId snoozedUntil env.now

/-- The give-up path shared by step 2 and the trash-failure handler:
patch to `failed` with the error message, emit `queue:updated`, discard
the job. -/
def failAndDiscard (w : World) (itemId : String) (msg : String) : World :=
  { w with
    queue := patchQueueItem w.queue itemId
      { status := some .failed, error := some (some msg) }
    events := w.events ++ [Event.queueUpdated]
    jobs := jobsRemove w.jobs itemId }

/-- Step 4 of `attemptDeletion`: patch to `deleting`, emit
`queue:updated`, invoke the trash primitive on the path captured at
entry; on success patch to `deleted`, emit `file:deleted` and discard the
job; on rejection re-read the item's counter and apply the same
snooze/retry policy as step 2 with the rejection message. -/
def trashStep (env : FireEnv) (w : World) (itemId : String) (item : QueueItem) : World :=
  let w1 := { w with
    queue := patchQueueItem w.queue itemId { status := some .deleting }
    events := w.events ++ [Event.queueUpdated] }
  let w2 := { w1 with trashCalls := w1.trashCalls ++ [item.filePath] }
  if env.trashOk then
    { w2 with
      queue := patchQueueItem w2.queue itemId { status := some .deleted }
      events := w2.events ++ [Event.fileDeleted itemId]
      jobs := jobsRemove w2.jobs itemId }
  else
    let freshCount :=
      match getQueueItem w2.queue itemId with
      | some fresh => fresh.snoozeCount
      | none => item.snoozeCount
    let newSnoozeCount := freshCount + 1
    if MAX_SNOOZE_COUNT < newSnoozeCount then failAndDiscard w2 itemId env.trashError
    else snoozeAndReschedule env w2 itemId newSnoozeCount

/-- `attemptDeletion` from `deletionEngine.ts`.  The `waitForConfirmation`
suspension is modelled synchronously: its pending-map entry is installed
and removed within the same firing (net unchanged), and its resolution is
`confirmationOutcome env.userResponse`. -/
def attemptDeletion (env : FireEnv) (w : World) (itemId : String) : World :=
  match getQueueItem w.queue itemId with
  | none => w
  | some item =>
    -- 1. existence check
    if !env.fileExists then
      { w with
        queue := patchQueueItem w.queue itemId { status := some .deleted }
        events := w.events ++ [Event.fileDeleted itemId]
        jobs := jobsRemove w.jobs itemId }
    -- 2. Tier-1 lock probe
    else if env.locked then
      let newSnoozeCount := item.snoozeCount + 1
      if MAX_SNOOZE_COUNT < newSnoozeCount then
        failAndDiscard w itemId "File remained locked after max retries"
      else snoozeAndReschedule env w itemId newSnoozeCount
    -- 3. Tier-2 window-title heuristic
    else if env.windowMatches.isEmpty then trashStep env w itemId item
    else
      let w1 := { w with
        queue := patchQueueItem w.queue itemId { status := some .confirming }
        events := w.events ++
          [Event.confirmDelete itemId (processNamesForDialog env.windowMatches)
            CONFIRM_TIMEOUT_MS env.now,
          Event.queueUpdated] }
      let w2 := showConfirmDeleteNotification w1 env.notifSupported itemId
      match confirmationOutcome env.userResponse with
      | .keep =>
        { w2 with
          queue := patchQueueItem w2.queue itemId
            { status := some .pending, scheduledFor := some none }
          events := w2.events ++ [Event.queueUpdated]
          jobs := jobsRemove w2.jobs itemId }
      | .delete => trashStep env w2 itemId item

-- ─── Public engine API (deletionEngine.ts) ───────────────────────────────────

/-- `scheduleItem`: cancel any prior job; `minutes = none` marks "never
delete" (status `pending`, no job); otherwise patch to `scheduled` with
deadline `now + minutes` and install the job. -/
def scheduleItem (w : World) (item : QueueItem) (minutes : Option Nat) (now : Nat) :
    World :=
  let w0 := { w with jobs := jobsRemove w.jobs item.id }
  match minutes with
  | none =>
    { w0 with
      queue := patchQueueItem w0.queue item.id
        { status := some .pending, scheduledFor := some none } }
  | some m =>
    let fireAt := now + m * 60 * 1000
    let w1 := { w0 with
      queue := patchQueueItem w0.queue item.id
        { status := some .scheduled, scheduledFor := some (some fireAt) } }
    scheduleJobAt w1 item.id fireAt now

/-- `cancelItem`: cancel and drop the job if one exists, resolve any
outstanding confirmation as `keep`, patch to `pending` with a null
deadline. -/
def cancelItem (w : World) (itemId : String) : World :=
  let w0 := { w with jobs := jobsRemove w.jobs itemId }
  let w1 := resolveConfirmation w0 itemId .keep
  { w1 with
    queue := patchQueueItem w1.queue itemId
      { status := some .pending, scheduledFor := some none } }

/-- `snoozeItem`: extend the deadline by `SNOOZE_MINUTES` from the later
of the current deadline and now, bump the counter, set `snoozed`,
reschedule.  A no-op for an unknown id. -/
def snoozeItem (w : World) (itemId : String) (now : Nat) : World :=
  match getQueueItem w.queue itemId with
  | none => w
  | some item =>
    let base :=
      match item.scheduledFor with
      | some t => if now < t then t else now
      | none => now
    let snoozedUntil := base + SNOOZE_MINUTES * 60 * 1000
    let newSnoozeCount := item.snoozeCount + 1
    let w1 := { w with
      queue := patchQueueItem w.queue itemId
        { status := some .snoozed, snoozeCount := some newSnoozeCount,
          scheduledFor := some (some snoozedUntil) } }
    scheduleJobAt w1 itemId snoozedUntil now

/-- The terminal-status test of `reconcileOnStartup`'s loop. -/
def reconcileSkip (item : QueueItem) : Bool :=
  item.status == .deleted || item.status == .failed || item.status == .whitelisted

/-- The loop of `reconcileOnStartup`, threading the stagger accumulator:
terminal or never-delete items are skipped, future deadlines re-register
a job, overdue deadlines queue a staggered `setTimeout` firing. -/
def reconcileLoop (now : Nat) : Nat → List QueueItem → World → World
  | _, [], w => w
  | overdueDelay, item :: rest, w =>
    if reconcileSkip item then
      reconcileLoop now overdueDelay rest w
    else
      match item.scheduledFor with
      | none => reconcileLoop now overdueDelay rest w
      | some t =>
        if now < t then
          reconcileLoop now overdueDelay rest (scheduleJobAt w item.id t now)
        else
          reconcileLoop now (overdueDelay + 500) rest
            { w with overdueFirings := w.overdueFirings ++ [(item.id, overdueDelay)] }

/-- `reconcileOnStartup` from `deletionEngine.ts`. -/
def reconcileOnStartup (w : World) (now : Nat) : World :=
  reconcileLoop now 0 w.queue w

/-- The `FILE_REMOVE` IPC handler in `main/index.ts`: remove the item
from the store and push a queue refresh; the scheduler job is not
touched. -/
def fileRemove (w : World) (itemId : String) : World :=
  { w with
    queue := removeQueueItem w.queue itemId
    events := w.events ++ [Event.queueUpdated] }

-- ─── Watcher (fileWatcher.ts) ────────────────────────────────────────────────

/-- Oracle for one watcher handler invocation: the `fs.statSync` result
for the path (`none` = the call threw, file gone; `some (ino, size)`
otherwise), the clock, the freshly generated `randomUUID`, and the
notification-environment flags. -/
structure StatEnv where
  stat : Option (Nat × Nat)
  now : Nat
  newId : String
  notifSupported : Bool
  winVisible : Bool
deriving DecidableEq, Repr

/-- The lookup `getQueue().find(i => i.filePath === filePath && i.status
!== 'deleted' && i.status !== 'failed')` used by the watcher handlers. -/
def liveItemAtPath (q : List QueueItem) (filePath : String) : Option QueueItem :=
  q.find? (fun i =>
    i.filePath == filePath && !(i.status == .deleted) && !(i.status == .failed))

/-- The fresh `QueueItem` literal built by `handleNewFile` for a stable
new path (before whitelist classification). -/
def builtItem (env : StatEnv) (filePath : String) (ino size : Nat) : QueueItem :=
  { id := env.newId, filePath := filePath, fileName := winBasename filePath,
    fileSize := size, fileExtension := (winExtname (winBasename filePath)).toLower,
    inode := ino, detectedAt := env.now, scheduledFor := none, status := .pending,
    snoozeCount := 0, clusterId := none, error := none }

/-- The no-whitelist-match tail of `handleNewFile`: persist as `pending`,
raise `file:new`, and show the best-effort toast when enabled.  (The
`win.show()` call is presentation-only and not part of the state.) -/
def handleNewFileNormal (env : StatEnv) (w : World) (item : QueueItem) : World :=
  let w1 := { w with
    queue := upsertQueueItem w.queue item
    events := w.events ++ [Event.fileNew item.id] }
  if w1.settings.showNotifications && env.notifSupported then
    { w1 with toasts := w1.toasts ++ [Toast.newFileToast item.id] }
  else w1

/-- `handleNewFile` from `fileWatcher.ts` (runs after the 500ms
debounce): skip already-tracked live paths; skip when the stat throws;
treat an inode hit in the rename table as a rename (patch
path/name/extension/size in place, clear the entry, refresh); otherwise
build a fresh `QueueItem` and classify it against the whitelist. -/
def handleNewFile (env : StatEnv) (w : World) (filePath : String) : World :=
  match liveItemAtPath w.queue filePath with
  | some _ => w
  | none =>
  match env.stat with
  | none => w
  | some (ino, size) =>
    match renameLookup w.renameTable ino with
    | some renamedItemId =>
      let fileName := winBasename filePath
      let fileExtension := (winExtname fileName).toLower
      { w with
        renameTable := renameRemove w.renameTable ino
        queue := patchQueueItem w.queue renamedItemId
          { filePath := some filePath, fileName := some fileName,
            fileExtension := some fileExtension, fileSize := some size }
        events := w.events ++ [Event.queueUpdated] }
    | none =>
      let item := builtItem env filePath ino size
      match matchWhitelistRule item.fileName w.settings.whitelistRules with
      | some rule =>
        if rule.action == .neverDelete then
          { w with
            queue := upsertQueueItem w.queue { item with status := .whitelisted }
            events := w.events ++ [Event.queueUpdated] }
        else
          match rule.autoDeleteMinutes with
          | some m =>
            { w with
              queue := upsertQueueItem w.queue
                { item with
                  status := .scheduled,
                  scheduledFor := some (env.now + m * 60 * 1000) }
              events := w.events ++ [Event.fileNew item.id] }
          | none => handleNewFileNormal env w item
      | none => handleNewFileNormal env w item

/-- `handleFileUnlinked` from `fileWatcher.ts`: clear any pending
debounce for the path; if a live item tracks the path, record its inode
in the rename table (the `setTimeout` expiry is the separate
`renameWindowExpire` transition below). -/
def handleFileUnlinked (w : World) (filePath : String) : World :=
  let w0 := { w with debounce := w.debounce.filter (fun p => !(p == filePath)) }
  match liveItemAtPath w0.queue filePath with
  | none => w0
  | some item =>
    { w0 with
      renameTable := (item.inode, item.id) :: renameRemove w0.renameTable item.inode }

/-- The `RENAME_WINDOW_MS` `setTimeout` callback installed by
`handleFileUnlinked`, with `_cancelJobFn` wired to `cancelItem` as in
`main/index.ts`: drop the table entry, cancel the deletion job, finalize
the entity as truly deleted.  This transition is enabled only while the
entry `(ino, itemId)` is still alive in the rename table (a matching
rename clears the timer). -/
def renameWindowExpire (w : World) (ino : Nat) (itemId : String) : World :=
  let w0 := { w with renameTable := renameRemove w.renameTable ino }
  let w1 := cancelItem w0 itemId
  { w1 with
    queue := patchQueueItem w1.queue itemId
      { status := some .deleted, scheduledFor := some none }
    events := w1.events ++ [Event.fileDeleted itemId] }

-- ─── Projection lemmas ───────────────────────────────────────────────────────

@[simp]
theorem showSnoozeNotification_queue (w : World) (ns wv : Bool) (itemId : String) :
    (showSnoozeNotification w ns wv itemId).queue = w.queue := by
  unfold showSnoozeNotification; split <;> rfl

@[simp]
theorem showSnoozeNotification_jobs (w : World) (ns wv : Bool) (itemId : String) :
    (showSnoozeNotification w ns wv itemId).jobs = w.jobs := by
  unfold showSnoozeNotification; split <;> rfl

@[simp]
theorem showSnoozeNotification_events (w : World) (ns wv : Bool) (itemId : String) :
    (showSnoozeNotification w ns wv itemId).events = w.events := by
  unfold showSnoozeNotification; split <;> rfl

@[simp]
theorem showSnoozeNotification_trashCalls (w : World) (ns wv : Bool) (itemId : String) :
    (showSnoozeNotification w ns wv itemId).trashCalls = w.trashCalls := by
  unfold showSnoozeNotification; split <;> rfl

@[simp]
theorem showConfirmDeleteNotification_queue (w : World) (ns : Bool) (itemId : String) :
    (showConfirmDeleteNotification w ns itemId).queue = w.queue := by
  unfold showConfirmDeleteNotification; split <;> rfl

@[simp]
theorem showConfirmDeleteNotification_jobs (w : World) (ns : Bool) (itemId : String) :
    (showConfirmDeleteNotification w ns itemId).jobs = w.jobs := by
  unfold showConfirmDeleteNotification; split <;> rfl

@[simp]
theorem showConfirmDeleteNotification_events (w : World) (ns : Bool) (itemId : String) :
    (showConfirmDeleteNotification w ns itemId).events = w.events := by
  unfold showConfirmDeleteNotification; split <;> rfl

@[simp]
theorem showConfirmDeleteNotification_trashCalls (w : World) (ns : Bool) (itemId : String) :
    (showConfirmDeleteNotification w ns itemId).trashCalls = w.trashCalls := by
  unfold showConfirmDeleteNotification; split <;> rfl

@[simp]
theorem showConfirmDeleteNotification_settings (w : World) (ns : Bool) (itemId : String) :
    (showConfirmDeleteNotification w ns itemId).settings = w.settings := by
  unfold showConfirmDeleteNotification; split <;> rfl

@[simp]
theorem scheduleJobAt_queue (w : World) (itemId : String) (fireAt now : Nat) :
    (scheduleJobAt w itemId fireAt now).queue = w.queue := by
  unfold scheduleJobAt; split <;> rfl

@[simp]
theorem scheduleJobAt_events (w : World) (itemId : String) (fireAt now : Nat) :
    (scheduleJobAt w itemId fireAt now).events = w.events := by
  unfold scheduleJobAt; split <;> rfl

@[simp]
theorem scheduleJobAt_trashCalls (w : World) (itemId : String) (fireAt now : Nat) :
    (scheduleJobAt w itemId fireAt now).trashCalls = w.trashCalls := by
  unfold scheduleJobAt; split <;> rfl

@[simp]
theorem scheduleJobAt_overdueFirings (w : World) (itemId : String) (fireAt now : Nat) :
    (scheduleJobAt w itemId fireAt now).overdueFirings = w.overdueFirings := by
  unfold scheduleJobAt; split <;> rfl

@[simp]
theorem resolveConfirmation_queue (w : World) (itemId : String) (d : Decision) :
    (resolveConfirmation w itemId d).queue = w.queue := by
  unfold resolveConfirmation; split <;> rfl

@[simp]
theorem resolveConfirmation_jobs (w : World) (itemId : String) (d : Decision) :
    (resolveConfirmation w itemId d).jobs = w.jobs := by
  unfold resolveConfirmation; split <;> rfl

@[simp]
theorem jobsLookup_cons_self (jobs : List (String × Nat)) (itemId : String) (t : Nat) :
    jobsLookup ((itemId, t) :: jobs) itemId = some t := by
  simp [jobsLookup]

@[simp]
theorem jobsLookup_jobsRemove (jobs : List (String × Nat)) (itemId : String) :
    jobsLookup (jobsRemove jobs itemId) itemId = none := by
  have h : List.find? (fun e => e.1 == itemId) (jobsRemove jobs itemId) = none := by
    rw [List.find?_eq_none]
    intro e he
    simp only [jobsRemove, List.mem_filter] at he
    simpa using he.2
  rw [jobsLookup, h]
  rfl

theorem jobsLookup_scheduleJobAt_self (w : World) (itemId : String) (fireAt now : Nat)
    (h : now < fireAt) :
    jobsLookup (scheduleJobAt w itemId fireAt now).jobs itemId = some fireAt := by
  unfold scheduleJobAt
  rw [if_pos h]
  exact jobsLookup_cons_self _ _ _

@[simp]
theorem renameLookup_renameRemove (t : List (Nat × String)) (ino : Nat) :
    renameLookup (renameRemove t ino) ino = none := by
  have h : List.find? (fun e => e.1 == ino) (renameRemove t ino) = none := by
    rw [List.find?_eq_none]
    intro e he
    simp only [renameRemove, List.mem_filter] at he
    simpa using he.2
  rw [renameLookup, h]
  rfl

-- ─── attemptDeletion branch characterizations ────────────────────────────────

theorem attemptDeletion_locked_snooze (env : FireEnv) (w : World) (itemId : String)
    (item : QueueItem) (hi : getQueueItem w.queue itemId = some item)
    (hex : env.fileExists = true) (hl : env.locked = true)
    (hc : item.snoozeCount < MAX_SNOOZE_COUNT) :
    getQueueItem (attemptDeletion env w itemId).queue itemId =
      some { item with
        status := .snoozed, snoozeCount := item.snoozeCount + 1,
        scheduledFor := some (env.now + SNOOZE_MINUTES * 60 * 1000) } ∧
    jobsLookup (attemptDeletion env w itemId).jobs itemId =
      some (env.now + SNOOZE_MINUTES * 60 * 1000) ∧
    (attemptDeletion env w itemId).trashCalls = w.trashCalls ∧
    (attemptDeletion env w itemId).events =
      w.events ++ [Event.fileInUse itemId, Event.queueUpdated] := by
  have hb : ¬ (MAX_SNOOZE_COUNT < item.snoozeCount + 1) := by omega
  simp only [attemptDeletion, hi, hex, hl, Bool.not_true, Bool.false_eq_true,
    if_false, if_true, if_neg hb, snoozeAndReschedule]
  refine ⟨?_, ?_, ?_, ?_⟩
  · rw [scheduleJobAt_queue, showSnoozeNotification_queue,
      getQueueItem_patchQueueItem, hi]
    rfl
  · exact jobsLookup_scheduleJobAt_self _ _ _ _
      (by simp only [SNOOZE_MINUTES]; omega)
  · rw [scheduleJobAt_trashCalls, showSnoozeNotification_trashCalls]
  · rw [scheduleJobAt_events, showSnoozeNotification_events]

theorem attemptDeletion_locked_fail (env : FireEnv) (w : World) (itemId : String)
    (item : QueueItem) (hi : getQueueItem w.queue itemId = some item)
    (hex : env.fileExists = true) (hl : env.locked = true)
    (hc : MAX_SNOOZE_COUNT ≤ item.snoozeCount) :
    getQueueItem (attemptDeletion env w itemId).queue itemId =
      some { item with
        status := .failed,
        error := some "File remained locked after max retries" } ∧
    jobsLookup (attemptDeletion env w itemId).jobs itemId = none ∧
    (attemptDeletion env w itemId).trashCalls = w.trashCalls ∧
    (attemptDeletion env w itemId).events = w.events ++ [Event.queueUpdated] := by
  have hb : MAX_SNOOZE_COUNT < item.snoozeCount + 1 := by omega
  simp only [attemptDeletion, hi, hex, hl, Bool.not_true, Bool.false_eq_true,
    if_false, if_true, if_pos hb, failAndDiscard]
  refine ⟨?_, ?_, ?_, ?_⟩
  · rw [getQueueItem_patchQueueItem, hi]
    rfl
  · exact jobsLookup_jobsRemove _ _
  · trivial
  · trivial

theorem attemptDeletion_confirm_delete_trashOk (env : FireEnv) (w : World)
    (itemId : String) (item : QueueItem)
    (hi : getQueueItem w.queue itemId = some item)
    (hex : env.fileExists = true) (hl : env.locked = false)
    (hm : env.windowMatches ≠ []) (hu : env.userResponse = none)
    (ht : env.trashOk = true) :
    getQueueItem (attemptDeletion env w itemId).queue itemId =
      some { item with status := .deleted } ∧
    jobsLookup (attemptDeletion env w itemId).jobs itemId = none ∧
    (attemptDeletion env w itemId).trashCalls = w.trashCalls ++ [item.filePath] ∧
    (attemptDeletion env w itemId).events =
      w.events ++
        [Event.confirmDelete itemId (processNamesForDialog env.windowMatches)
          CONFIRM_TIMEOUT_MS env.now,
        Event.queueUpdated, Event.queueUpdated, Event.fileDeleted itemId] := by
  have hne : env.windowMatches.isEmpty = false := by
    simpa [List.isEmpty_iff] using hm
  simp only [attemptDeletion, hi, hex, hl, hne, Bool.not_true, Bool.false_eq_true,
    if_false, confirmationOutcome, hu, Option.getD_none, trashStep, ht, if_true,
    showConfirmDeleteNotification_queue, showConfirmDeleteNotification_jobs,
    showConfirmDeleteNotification_events, showConfirmDeleteNotification_trashCalls]
  refine ⟨?_, ?_, ?_, ?_⟩
  · rw [getQueueItem_patchQueueItem, getQueueItem_patchQueueItem,
      getQueueItem_patchQueueItem, hi]
    rfl
  · exact jobsLookup_jobsRemove _ _
  · trivial
  · simp

theorem resolveConfirmation_not_pending (w : World) (itemId : String) (d : Decision) :
    (resolveConfirmation w itemId d).pendingConfirmations.contains itemId = false := by
  unfold resolveConfirmation
  by_cases h : w.pendingConfirmations.contains itemId
  · rw [if_pos h]
    simp [List.mem_filter]
  · rw [if_neg h]
    exact Bool.eq_false_iff.mpr h

@[simp]
theorem resolveConfirmation_renameTable (w : World) (itemId : String) (d : Decision) :
    (resolveConfirmation w itemId d).renameTable = w.renameTable := by
  unfold resolveConfirmation; split <;> rfl

@[simp]
theorem resolveConfirmation_events (w : World) (itemId : String) (d : Decision) :
    (resolveConfirmation w itemId d).events = w.events := by
  unfold resolveConfirmation; split <;> rfl

theorem cancelItem_getQueueItem (w : World) (itemId : String) (item : QueueItem)
    (hi : getQueueItem w.queue itemId = some item) :
    getQueueItem (cancelItem w itemId).queue itemId =
      some { item with status := .pending, scheduledFor := none } := by
  rw [show (cancelItem w itemId).queue =
      patchQueueItem (resolveConfirmation
        { w with jobs := jobsRemove w.jobs itemId } itemId .keep).queue itemId
        { status := some .pending, scheduledFor := some none } from rfl,
    resolveConfirmation_queue, getQueueItem_patchQueueItem]
  show (getQueueItem w.queue itemId).map _ = _
  rw [hi]
  rfl

theorem cancelItem_jobsLookup (w : World) (itemId : String) :
    jobsLookup (cancelItem w itemId).jobs itemId = none := by
  rw [show (cancelItem w itemId).jobs =
      (resolveConfirmation { w with jobs := jobsRemove w.jobs itemId }
        itemId .keep).jobs from rfl, resolveConfirmation_jobs]
  exact jobsLookup_jobsRemove _ _

@[simp]
theorem cancelItem_renameTable (w : World) (itemId : String) :
    (cancelItem w itemId).renameTable = w.renameTable := by
  rw [show (cancelItem w itemId).renameTable =
      (resolveConfirmation { w with jobs := jobsRemove w.jobs itemId }
        itemId .keep).renameTable from rfl, resolveConfirmation_renameTable]

-- ─── Sample fixtures used by witness theorems ────────────────────────────────

/-- A concrete tracked entity used to instantiate witness theorems. -/
def sampleItem : QueueItem :=
  { id := "a", filePath := "C:/dl/report.pdf", fileName := "report.pdf",
    fileSize := 100, fileExtension := ".pdf", inode := 7, detectedAt := 1000,
    scheduledFor := some 5000, status := .scheduled, snoozeCount := 0,
    clusterId := none, error := none }

/-- A concrete world holding `sampleItem` with its job and a pending
confirmation, used to instantiate witness theorems. -/
def sampleWorld : World :=
  { queue := [sampleItem], jobs := [("a", 5000)], pendingConfirmations := ["a"],
    renameTable := [], debounce := [],
    settings := { showNotifications := false, whitelistRules := [] },
    events := [], toasts := [], trashCalls := [], resolutions := [],
    overdueFirings := [] }

-- ─── Claim C4 ────────────────────────────────────────────────────────────────

/-- Claim C4 counterexample: the Tier-1 probe completes with the
unexpected exit status 2 while a rename probe would succeed.  The claim
predicts the rename-probe fallback (hence unlocked); `isFileLocked`
instead reports locked without attempting the fallback. -/
theorem c4_counterexample :
    isFileLocked ⟨false, 2, true, true⟩ = true ∧
    isFileLockedClaimed ⟨false, 2, true, true⟩ = false := by decide

/-- Claim C4 (amended): `isFileLocked` never throws (it is total) and
degrades to the rename-probe fallback exactly when the spawn itself
fails (facility unreachable or timed out, `result.error` set): it then
reports unlocked precisely when both renames succeed.  When the
invocation completes, any non-zero exit status — including unexpected
ones — is reported as locked with no fallback. -/
theorem c4_fallback_only_on_spawn_error (e : Tier1Env) :
    isFileLocked e = false ↔
      ((e.spawnError = true ∧ e.renameToTmpOk = true ∧ e.renameBackOk = true) ∨
       (e.spawnError = false ∧ e.exitStatus = 0)) := by
  rcases e with ⟨se, st, r1, r2⟩
  cases se <;> cases r1 <;> cases r2 <;>
    simp [isFileLocked, bne_eq_false_iff_eq]

-- ─── Claim C10 ───────────────────────────────────────────────────────────────

/-- Claim C10: removing an entity from the store via the remove-from-queue
command leaves its scheduler job untouched, and when that job later fires,
`attemptDeletion` finds no entity for the id and returns the world
unchanged: no store mutation, no renderer event, no trash invocation. -/
theorem c10_remove_leaves_job_then_fire_is_noop (w : World) (itemId : String)
    (env : FireEnv) :
    jobsLookup (fileRemove w itemId).jobs itemId = jobsLookup w.jobs itemId ∧
    attemptDeletion env (fileRemove w itemId) itemId = fileRemove w itemId := by
  refine ⟨rfl, ?_⟩
  have h : getQueueItem (fileRemove w itemId).queue itemId = none := by
    simpa [fileRemove] using getQueueItem_removeQueueItem w.queue itemId
  simp only [attemptDeletion, h]

-- ─── Claim C9 ────────────────────────────────────────────────────────────────

/-- Claim C9: `cancelItem`, callable at any time, cancels the entity's
scheduler job, resolves any outstanding confirmation for the entity as
`keep`, sets status `pending` and clears the deadline; it is total (never
throws), so on an entity with no active job it still yields status
`pending` with a null deadline. -/
theorem c9_cancelItem_spec (w : World) (itemId : String) (item : QueueItem)
    (hi : getQueueItem w.queue itemId = some item) :
    getQueueItem (cancelItem w itemId).queue itemId =
      some { item with status := .pending, scheduledFor := none } ∧
    jobsLookup (cancelItem w itemId).jobs itemId = none ∧
    (cancelItem w itemId).pendingConfirmations.contains itemId = false ∧
    (w.pendingConfirmations.contains itemId = true →
      (cancelItem w itemId).resolutions = w.resolutions ++ [(itemId, .keep)]) := by
  refine ⟨?_, ?_, ?_, ?_⟩
  · exact cancelItem_getQueueItem w itemId item hi
  · exact cancelItem_jobsLookup w itemId
  · exact resolveConfirmation_not_pending _ _ _
  · intro hp
    rw [show (cancelItem w itemId).resolutions =
        (resolveConfirmation { w with jobs := jobsRemove w.jobs itemId }
          itemId .keep).resolutions from rfl]
    unfold resolveConfirmation
    rw [if_pos (by simpa using hp)]

/-- Witness for C9 at a concrete world (no active job for the entity, so
the "no job" half is exercised too). -/
theorem c9_witness :
    getQueueItem (cancelItem sampleWorld "a").queue "a" =
      some { sampleItem with status := .pending, scheduledFor := none } ∧
    jobsLookup (cancelItem sampleWorld "a").jobs "a" = none ∧
    (cancelItem sampleWorld "a").pendingConfirmations.contains "a" = false ∧
    (sampleWorld.pendingConfirmations.contains "a" = true →
      (cancelItem sampleWorld "a").resolutions =
        sampleWorld.resolutions ++ [("a", .keep)]) :=
  c9_cancelItem_spec sampleWorld "a" sampleItem rfl

-- ─── Claim C8 ────────────────────────────────────────────────────────────────

/-- Claim C8: user-initiated `snoozeItem` sets the new deadline to
`SNOOZE_MINUTES` after the later of the current deadline and the current
time (not a hard reset to now + 10 minutes), increments the snooze/retry
counter by one, sets status `snoozed`, and reschedules the scheduler job
for the new deadline. -/
theorem c8_snoozeItem_extends_from_later (w : World) (itemId : String)
    (item : QueueItem) (now : Nat)
    (hi : getQueueItem w.queue itemId = some item) :
    getQueueItem (snoozeItem w itemId now).queue itemId =
      some { item with
        status := .snoozed, snoozeCount := item.snoozeCount + 1,
        scheduledFor :=
          some (max (item.scheduledFor.getD now) now + SNOOZE_MINUTES * 60 * 1000) } ∧
    jobsLookup (snoozeItem w itemId now).jobs itemId =
      some (max (item.scheduledFor.getD now) now + SNOOZE_MINUTES * 60 * 1000) := by
  have hbase :
      (match item.scheduledFor with
        | some t => if now < t then t else now
        | none => now) = max (item.scheduledFor.getD now) now := by
    cases hsf : item.scheduledFor with
    | none => simp
    | some t =>
      by_cases hlt : now < t
      · simp [hlt, Nat.max_eq_left (Nat.le_of_lt hlt)]
      · simp [hlt, Nat.max_eq_right (Nat.le_of_not_lt hlt)]
  simp only [snoozeItem, hi, hbase]
  constructor
  · rw [scheduleJobAt_queue, getQueueItem_patchQueueItem, hi]
    rfl
  · exact jobsLookup_scheduleJobAt_self _ _ _ _
      (by simp only [SNOOZE_MINUTES]
          have := Nat.le_max_right (item.scheduledFor.getD now) now
          omega)

/-- Witness for C8: `sampleItem` has deadline 5000 and is snoozed at time
2000, so the new deadline extends the existing 5000, not the clock. -/
theorem c8_witness :
    getQueueItem (snoozeItem sampleWorld "a" 2000).queue "a" =
      some { sampleItem with
        status := .snoozed, snoozeCount := sampleItem.snoozeCount + 1,
        scheduledFor :=
          some (max (sampleItem.scheduledFor.getD 2000) 2000 +
            SNOOZE_MINUTES * 60 * 1000) } ∧
    jobsLookup (snoozeItem sampleWorld "a" 2000).jobs "a" =
      some (max (sampleItem.scheduledFor.getD 2000) 2000 +
        SNOOZE_MINUTES * 60 * 1000) :=
  c8_snoozeItem_extends_from_later sampleWorld "a" sampleItem 2000 rfl

-- ─── Claim C3 ────────────────────────────────────────────────────────────────

/-- A concrete world for the C3 counterexample: an entity with a snooze
count of 2. -/
def c3World : World :=
  { sampleWorld with queue := [{ sampleItem with snoozeCount := 2 }] }

/-- Claim C3 counterexample: explicit new scheduling with a non-null
minutes value does NOT reset the snooze/retry counter — after
`scheduleItem` with 5 minutes, the stored counter is still 2, not 0. -/
theorem c3_counterexample :
    (getQueueItem
        (scheduleItem c3World { sampleItem with snoozeCount := 2 } (some 5) 2000).queue
        "a").map (fun i => i.snoozeCount) = some 2 ∧
    ¬ ((getQueueItem
        (scheduleItem c3World { sampleItem with snoozeCount := 2 } (some 5) 2000).queue
        "a").map (fun i => i.snoozeCount) = some 0) := by decide

/-- Claim C3 (amended): the snooze/retry counter is never reset after
entity creation: `scheduleItem` (with null or non-null minutes) leaves it
unchanged, while auto-snooze at a locked firing and user-initiated
`snoozeItem` increment it by one. -/
theorem c3_counter_never_reset (w : World) (item itemCur : QueueItem)
    (minutes : Option Nat) (now : Nat)
    (hi : getQueueItem w.queue item.id = some itemCur) :
    (getQueueItem (scheduleItem w item minutes now).queue item.id).map
        (fun i => i.snoozeCount) = some itemCur.snoozeCount ∧
    (getQueueItem (snoozeItem w item.id now).queue item.id).map
        (fun i => i.snoozeCount) = some (itemCur.snoozeCount + 1) ∧
    (∀ env : FireEnv, env.fileExists = true → env.locked = true →
      itemCur.snoozeCount < MAX_SNOOZE_COUNT →
      (getQueueItem (attemptDeletion env w item.id).queue item.id).map
        (fun i => i.snoozeCount) = some (itemCur.snoozeCount + 1)) := by
  refine ⟨?_, ?_, ?_⟩
  · cases minutes with
    | none =>
      simp only [scheduleItem]
      rw [getQueueItem_patchQueueItem, hi]
      rfl
    | some m =>
      simp only [scheduleItem]
      rw [scheduleJobAt_queue, getQueueItem_patchQueueItem, hi]
      rfl
  · simp only [snoozeItem, hi]
    rw [scheduleJobAt_queue, getQueueItem_patchQueueItem, hi]
    rfl
  · intro env hex hl hc
    obtain ⟨hq, -, -, -⟩ :=
      attemptDeletion_locked_snooze env w item.id itemCur hi hex hl hc
    rw [hq]
    rfl

/-- A concrete firing environment in which the file exists and Tier 1
reports it locked. -/
def lockedEnv : FireEnv :=
  { now := 10000, fileExists := true, locked := true, windowMatches := [],
    userResponse := none, trashOk := true, trashError := "EBUSY",
    notifSupported := false, winVisible := false }

/-- Witness for C3's amended theorem at the concrete sample world and a
concrete locked firing environment. -/
theorem c3_witness :
    (getQueueItem (scheduleItem sampleWorld sampleItem (some 5) 2000).queue
        sampleItem.id).map (fun i => i.snoozeCount) = some sampleItem.snoozeCount ∧
    (getQueueItem (snoozeItem sampleWorld sampleItem.id 2000).queue
        sampleItem.id).map (fun i => i.snoozeCount) =
      some (sampleItem.snoozeCount + 1) ∧
    (getQueueItem (attemptDeletion lockedEnv sampleWorld sampleItem.id).queue
        sampleItem.id).map (fun i => i.snoozeCount) =
      some (sampleItem.snoozeCount + 1) :=
  ⟨(c3_counter_never_reset sampleWorld sampleItem sampleItem (some 5) 2000 rfl).1,
   (c3_counter_never_reset sampleWorld sampleItem sampleItem (some 5) 2000 rfl).2.1,
   (c3_counter_never_reset sampleWorld sampleItem sampleItem (some 5) 2000 rfl).2.2
     lockedEnv rfl rfl (by decide)⟩

-- ─── Claim C1 ────────────────────────────────────────────────────────────────

/-- Claim C1: for an entity whose file exists and whose Tier-1 probe
reports locked at every deadline firing, each of the first three firings
increments the snooze counter (to 1, 2, 3), sets status `snoozed`, sets
the new deadline `SNOOZE_MINUTES` after the firing time and reschedules a
job at it; the fourth firing (counter already at 3) sets status `failed`
with an error message and discards the job — a fourth snooze never
occurs. -/
theorem c1_locked_retry_bound (w : World) (itemId : String) (item : QueueItem)
    (e1 e2 e3 e4 : FireEnv)
    (hi : getQueueItem w.queue itemId = some item)
    (hc : item.snoozeCount = 0)
    (hx1 : e1.fileExists = true) (hl1 : e1.locked = true)
    (hx2 : e2.fileExists = true) (hl2 : e2.locked = true)
    (hx3 : e3.fileExists = true) (hl3 : e3.locked = true)
    (hx4 : e4.fileExists = true) (hl4 : e4.locked = true) :
    (getQueueItem (attemptDeletion e1 w itemId).queue itemId =
        some { item with
          status := .snoozed, snoozeCount := 1,
          scheduledFor := some (e1.now + SNOOZE_MINUTES * 60 * 1000) } ∧
      jobsLookup (attemptDeletion e1 w itemId).jobs itemId =
        some (e1.now + SNOOZE_MINUTES * 60 * 1000)) ∧
    (getQueueItem (attemptDeletion e2 (attemptDeletion e1 w itemId) itemId).queue
        itemId =
        some { item with
          status := .snoozed, snoozeCount := 2,
          scheduledFor := some (e2.now + SNOOZE_MINUTES * 60 * 1000) } ∧
      jobsLookup (attemptDeletion e2 (attemptDeletion e1 w itemId) itemId).jobs
        itemId = some (e2.now + SNOOZE_MINUTES * 60 * 1000)) ∧
    (getQueueItem (attemptDeletion e3 (attemptDeletion e2
        (attemptDeletion e1 w itemId) itemId) itemId).queue itemId =
        some { item with
          status := .snoozed, snoozeCount := 3,
          scheduledFor := some (e3.now + SNOOZE_MINUTES * 60 * 1000) } ∧
      jobsLookup (attemptDeletion e3 (attemptDeletion e2
        (attemptDeletion e1 w itemId) itemId) itemId).jobs itemId =
        some (e3.now + SNOOZE_MINUTES * 60 * 1000)) ∧
    (getQueueItem (attemptDeletion e4 (attemptDeletion e3 (attemptDeletion e2
        (attemptDeletion e1 w itemId) itemId) itemId) itemId).queue itemId =
        some { item with
          status := .failed, snoozeCount := 3,
          scheduledFor := some (e3.now + SNOOZE_MINUTES * 60 * 1000),
          error := some "File remained locked after max retries" } ∧
      jobsLookup (attemptDeletion e4 (attemptDeletion e3 (attemptDeletion e2
        (attemptDeletion e1 w itemId) itemId) itemId) itemId).jobs itemId =
        none) := by
  obtain ⟨h1q, h1j, -, -⟩ :=
    attemptDeletion_locked_snooze e1 w itemId item hi hx1 hl1
      (by rw [hc]; decide)
  obtain ⟨h2q, h2j, -, -⟩ :=
    attemptDeletion_locked_snooze e2 _ itemId _ h1q hx2 hl2
      (by show item.snoozeCount + 1 < MAX_SNOOZE_COUNT; rw [hc]; decide)
  obtain ⟨h3q, h3j, -, -⟩ :=
    attemptDeletion_locked_snooze e3 _ itemId _ h2q hx3 hl3
      (by show item.snoozeCount + 1 + 1 < MAX_SNOOZE_COUNT; rw [hc]; decide)
  obtain ⟨h4q, h4j, -, -⟩ :=
    attemptDeletion_locked_fail e4 _ itemId _ h3q hx4 hl4
      (by show MAX_SNOOZE_COUNT ≤ item.snoozeCount + 1 + 1 + 1; rw [hc]; decide)
  refine ⟨⟨?_, h1j⟩, ⟨?_, h2j⟩, ⟨?_, h3j⟩, ⟨?_, h4j⟩⟩
  · simpa [hc] using h1q
  · simpa [hc] using h2q
  · simpa [hc] using h3q
  · simpa [hc] using h4q

/-- Witness for C1 at the concrete sample world with the same locked
environment at all four firings. -/
theorem c1_witness :
    (getQueueItem (attemptDeletion lockedEnv sampleWorld "a").queue "a" =
        some { sampleItem with
          status := .snoozed, snoozeCount := 1,
          scheduledFor := some (lockedEnv.now + SNOOZE_MINUTES * 60 * 1000) } ∧
      jobsLookup (attemptDeletion lockedEnv sampleWorld "a").jobs "a" =
        some (lockedEnv.now + SNOOZE_MINUTES * 60 * 1000)) ∧
    (getQueueItem (attemptDeletion lockedEnv
        (attemptDeletion lockedEnv sampleWorld "a") "a").queue "a" =
        some { sampleItem with
          status := .snoozed, snoozeCount := 2,
          scheduledFor := some (lockedEnv.now + SNOOZE_MINUTES * 60 * 1000) } ∧
      jobsLookup (attemptDeletion lockedEnv
        (attemptDeletion lockedEnv sampleWorld "a") "a").jobs "a" =
        some (lockedEnv.now + SNOOZE_MINUTES * 60 * 1000)) ∧
    (getQueueItem (attemptDeletion lockedEnv (attemptDeletion lockedEnv
        (attemptDeletion lockedEnv sampleWorld "a") "a") "a").queue "a" =
        some { sampleItem with
          status := .snoozed, snoozeCount := 3,
          scheduledFor := some (lockedEnv.now + SNOOZE_MINUTES * 60 * 1000) } ∧
      jobsLookup (attemptDeletion lockedEnv (attemptDeletion lockedEnv
        (attemptDeletion lockedEnv sampleWorld "a") "a") "a").jobs "a" =
        some (lockedEnv.now + SNOOZE_MINUTES * 60 * 1000)) ∧
    (getQueueItem (attemptDeletion lockedEnv (attemptDeletion lockedEnv
        (attemptDeletion lockedEnv (attemptDeletion lockedEnv sampleWorld "a")
        "a") "a") "a").queue "a" =
        some { sampleItem with
          status := .failed, snoozeCount := 3,
          scheduledFor := some (lockedEnv.now + SNOOZE_MINUTES * 60 * 1000),
          error := some "File remained locked after max retries" } ∧
      jobsLookup (attemptDeletion lockedEnv (attemptDeletion lockedEnv
        (attemptDeletion lockedEnv (attemptDeletion lockedEnv sampleWorld "a")
        "a") "a") "a").jobs "a" = none) :=
  c1_locked_retry_bound sampleWorld "a" sampleItem lockedEnv lockedEnv lockedEnv
    lockedEnv rfl rfl rfl rfl rfl rfl rfl rfl rfl rfl

-- ─── Claim C2 ────────────────────────────────────────────────────────────────

/-- Claim C2: for a confirming entity (file exists, Tier 1 unlocked,
window-title matches) with no user response, the confirmation resolves to
`delete` after the `CONFIRM_TIMEOUT_MS` (15 second) timeout, the firing
continues to the trash step, the trash primitive is invoked exactly once,
the job is discarded and the entity reaches status `deleted`. -/
theorem c2_confirm_timeout_deletes (env : FireEnv) (w : World) (itemId : String)
    (item : QueueItem)
    (hi : getQueueItem w.queue itemId = some item)
    (hex : env.fileExists = true) (hl : env.locked = false)
    (hm : env.windowMatches ≠ []) (hu : env.userResponse = none)
    (ht : env.trashOk = true) :
    confirmationOutcome env.userResponse = Decision.delete ∧
    CONFIRM_TIMEOUT_MS = 15000 ∧
    getQueueItem (attemptDeletion env w itemId).queue itemId =
      some { item with status := .deleted } ∧
    (attemptDeletion env w itemId).trashCalls = w.trashCalls ++ [item.filePath] ∧
    jobsLookup (attemptDeletion env w itemId).jobs itemId = none ∧
    (attemptDeletion env w itemId).events =
      w.events ++
        [Event.confirmDelete itemId (processNamesForDialog env.windowMatches)
          CONFIRM_TIMEOUT_MS env.now,
        Event.queueUpdated, Event.queueUpdated, Event.fileDeleted itemId] := by
  obtain ⟨hq, hj, ht', he⟩ :=
    attemptDeletion_confirm_delete_trashOk env w itemId item hi hex hl hm hu ht
  exact ⟨by rw [hu]; rfl, rfl, hq, ht', hj, he⟩

/-- A concrete firing environment for a confirming entity with no user
response: unlocked, one window-title match, timeout resolution. -/
def confirmEnv : FireEnv :=
  { now := 10000, fileExists := true, locked := false,
    windowMatches := ["notepad"], userResponse := none, trashOk := true,
    trashError := "", notifSupported := false, winVisible := false }

/-- Witness for C2 at the concrete sample world and environment. -/
theorem c2_witness :
    confirmationOutcome confirmEnv.userResponse = Decision.delete ∧
    CONFIRM_TIMEOUT_MS = 15000 ∧
    getQueueItem (attemptDeletion confirmEnv sampleWorld "a").queue "a" =
      some { sampleItem with status := .deleted } ∧
    (attemptDeletion confirmEnv sampleWorld "a").trashCalls =
      sampleWorld.trashCalls ++ [sampleItem.filePath] ∧
    jobsLookup (attemptDeletion confirmEnv sampleWorld "a").jobs "a" = none ∧
    (attemptDeletion confirmEnv sampleWorld "a").events =
      sampleWorld.events ++
        [Event.confirmDelete "a" (processNamesForDialog confirmEnv.windowMatches)
          CONFIRM_TIMEOUT_MS confirmEnv.now,
        Event.queueUpdated, Event.queueUpdated, Event.fileDeleted "a"] :=
  c2_confirm_timeout_deletes confirmEnv sampleWorld "a" sampleItem rfl rfl rfl
    (by decide) rfl rfl

-- ─── Claim C5 ────────────────────────────────────────────────────────────────

/-- Claim C5: while a removed entity's rename-table entry is alive, an
"appeared" event for a new path whose freshly read inode matches the
entry is treated as a rename: the entity's path, file name, extension and
size are updated in place (its id, status, deadline, snooze counter and
detection timestamp are unchanged, as the record update shows), the
rename-table entry is cleared, and only a queue-refresh event is raised.
If instead the window expires with no matching event, the entity's status
becomes `deleted`, its deadline is cleared, and any outstanding scheduler
job for it is cancelled. -/
theorem c5_rename_reconciliation (w : World) (filePath : String) (env : StatEnv)
    (ino size : Nat) (itemId : String) (item : QueueItem)
    (hlive : liveItemAtPath w.queue filePath = none)
    (hstat : env.stat = some (ino, size))
    (hren : renameLookup w.renameTable ino = some itemId)
    (hit : getQueueItem w.queue itemId = some item) :
    (getQueueItem (handleNewFile env w filePath).queue itemId =
        some { item with
          filePath := filePath, fileName := winBasename filePath,
          fileExtension := (winExtname (winBasename filePath)).toLower,
          fileSize := size } ∧
      renameLookup (handleNewFile env w filePath).renameTable ino = none ∧
      (handleNewFile env w filePath).events = w.events ++ [Event.queueUpdated] ∧
      (handleNewFile env w filePath).jobs = w.jobs) ∧
    (getQueueItem (renameWindowExpire w ino itemId).queue itemId =
        some { item with status := .deleted, scheduledFor := none } ∧
      jobsLookup (renameWindowExpire w ino itemId).jobs itemId = none ∧
      renameLookup (renameWindowExpire w ino itemId).renameTable ino = none) := by
  constructor
  · simp only [handleNewFile, hlive, hstat, hren]
    refine ⟨?_, ?_, ?_, ?_⟩
    · rw [getQueueItem_patchQueueItem, hit]
      rfl
    · exact renameLookup_renameRemove _ _
    · trivial
    · trivial
  · have hq0 : getQueueItem
        ({ w with renameTable := renameRemove w.renameTable ino } : World).queue
        itemId = some item := hit
    refine ⟨?_, ?_, ?_⟩
    · rw [show (renameWindowExpire w ino itemId).queue =
          patchQueueItem (cancelItem
            { w with renameTable := renameRemove w.renameTable ino } itemId).queue
            itemId { status := some .deleted, scheduledFor := some none } from rfl,
        getQueueItem_patchQueueItem,
        cancelItem_getQueueItem _ itemId item hq0]
      rfl
    · rw [show (renameWindowExpire w ino itemId).jobs =
          (cancelItem { w with renameTable := renameRemove w.renameTable ino }
            itemId).jobs from rfl]
      exact cancelItem_jobsLookup _ _
    · rw [show (renameWindowExpire w ino itemId).renameTable =
          (cancelItem { w with renameTable := renameRemove w.renameTable ino }
            itemId).renameTable from rfl, cancelItem_renameTable]
      exact renameLookup_renameRemove _ _

/-- A concrete world for the C5 witness: `sampleItem` was just unlinked,
so its inode is alive in the rename table and its job still exists. -/
def renameWorld : World :=
  { sampleWorld with renameTable := [(7, "a")] }

/-- A concrete watcher environment reading inode 7 (matching the table
entry) and size 256 for the new path. -/
def renameEnv : StatEnv :=
  { stat := some (7, 256), now := 20000, newId := "b",
    notifSupported := false, winVisible := false }

/-- Witness for C5 at the concrete rename world, for the new path
"C:/dl/renamed.pdf". -/
theorem c5_witness :
    (getQueueItem (handleNewFile renameEnv renameWorld "C:/dl/renamed.pdf").queue
        "a" =
        some { sampleItem with
          filePath := "C:/dl/renamed.pdf",
          fileName := winBasename "C:/dl/renamed.pdf",
          fileExtension := (winExtname (winBasename "C:/dl/renamed.pdf")).toLower,
          fileSize := 256 } ∧
      renameLookup (handleNewFile renameEnv renameWorld
        "C:/dl/renamed.pdf").renameTable 7 = none ∧
      (handleNewFile renameEnv renameWorld "C:/dl/renamed.pdf").events =
        renameWorld.events ++ [Event.queueUpdated] ∧
      (handleNewFile renameEnv renameWorld "C:/dl/renamed.pdf").jobs =
        renameWorld.jobs) ∧
    (getQueueItem (renameWindowExpire renameWorld 7 "a").queue "a" =
        some { sampleItem with status := .deleted, scheduledFor := none } ∧
      jobsLookup (renameWindowExpire renameWorld 7 "a").jobs "a" = none ∧
      renameLookup (renameWindowExpire renameWorld 7 "a").renameTable 7 = none) :=
  c5_rename_reconciliation renameWorld "C:/dl/renamed.pdf" renameEnv 7 256 "a"
    sampleItem (by decide) rfl rfl rfl

-- ─── Claim C6 ────────────────────────────────────────────────────────────────

theorem matchRuleLoop_eq_find (ext base : String) (rules : List WhitelistRule) :
    matchRuleLoop ext base rules = rules.find? (ruleHit ext base) := by
  induction rules with
  | nil => rfl
  | cons r rest ih =>
    rw [matchRuleLoop_cons]
    by_cases h : ruleHit ext base r = true
    · rw [if_pos h, List.find?_cons_of_pos _ h]
    · rw [if_neg h, List.find?_cons_of_neg _ (by simp [h]), ih]

@[simp]
theorem handleNewFileNormal_queue (env : StatEnv) (w : World) (item : QueueItem) :
    (handleNewFileNormal env w item).queue = upsertQueueItem w.queue item := by
  simp only [handleNewFileNormal]
  split <;> rfl

@[simp]
theorem handleNewFileNormal_events (env : StatEnv) (w : World) (item : QueueItem) :
    (handleNewFileNormal env w item).events = w.events ++ [Event.fileNew item.id] := by
  simp only [handleNewFileNormal]
  split <;> rfl

/-- Claim C6: on stable detection of a new file, whitelist rules are
evaluated in list order with the first enabled matching rule winning
(`matchWhitelistRule` is `find?` of the hit predicate); a `never-delete`
match persists the entity as `whitelisted` with only a queue-refresh
event and no new-file event; an `auto-delete-after` match with configured
minutes persists the entity as `scheduled` with deadline = detection time
plus the configured minutes and still raises the new-file event; with no
match the entity is persisted as `pending` and the new-file event is
raised. -/
theorem c6_whitelist_classification (w : World) (filePath : String) (env : StatEnv)
    (ino size : Nat) (rule : WhitelistRule) (m : Nat)
    (hlive : liveItemAtPath w.queue filePath = none)
    (hstat : env.stat = some (ino, size))
    (hren : renameLookup w.renameTable ino = none) :
    matchWhitelistRule (builtItem env filePath ino size).fileName
        w.settings.whitelistRules =
      w.settings.whitelistRules.find?
        (ruleHit (winExtname (builtItem env filePath ino size).fileName).toLower
          (winBasename (builtItem env filePath ino size).fileName).toLower) ∧
    (matchWhitelistRule (builtItem env filePath ino size).fileName
        w.settings.whitelistRules = some rule →
      rule.action = .neverDelete →
      getQueueItem (handleNewFile env w filePath).queue env.newId =
        some { builtItem env filePath ino size with status := .whitelisted } ∧
      (handleNewFile env w filePath).events = w.events ++ [Event.queueUpdated]) ∧
    (matchWhitelistRule (builtItem env filePath ino size).fileName
        w.settings.whitelistRules = some rule →
      rule.action = .autoDeleteAfter → rule.autoDeleteMinutes = some m →
      getQueueItem (handleNewFile env w filePath).queue env.newId =
        some { builtItem env filePath ino size with
          status := .scheduled,
          scheduledFor :=
            some ((builtItem env filePath ino size).detectedAt + m * 60 * 1000) } ∧
      (handleNewFile env w filePath).events = w.events ++ [Event.fileNew env.newId]) ∧
    (matchWhitelistRule (builtItem env filePath ino size).fileName
        w.settings.whitelistRules = none →
      getQueueItem (handleNewFile env w filePath).queue env.newId =
        some (builtItem env filePath ino size) ∧
      (builtItem env filePath ino size).status = .pending ∧
      (handleNewFile env w filePath).events = w.events ++ [Event.fileNew env.newId]) := by
  refine ⟨matchRuleLoop_eq_find _ _ _, ?_, ?_, ?_⟩
  · intro hm ha
    have hab : (rule.action == RuleAction.neverDelete) = true := by simp [ha]
    simp only [handleNewFile, hlive, hstat, hren, hm, hab, if_true]
    exact ⟨getQueueItem_upsertQueueItem _ _, by trivial⟩
  · intro hm ha hmin
    have hab : (rule.action == RuleAction.neverDelete) = false := by simp [ha]
    simp only [handleNewFile, hlive, hstat, hren, hm, hab, Bool.false_eq_true,
      if_false, hmin]
    exact ⟨getQueueItem_upsertQueueItem _ _, by trivial⟩
  · intro hm
    simp only [handleNewFile, hlive, hstat, hren, hm, handleNewFileNormal_queue,
      handleNewFileNormal_events]
    exact ⟨getQueueItem_upsertQueueItem _ _, rfl, rfl⟩

/-- Concrete whitelist: a disabled rule that would match first, then an
enabled `never-delete` extension rule, then a later enabled rule that
also matches but must not win. -/
def c6RuleNever : WhitelistRule :=
  { id := "r1", type := .extension, value := ".PDF", action := .neverDelete,
    autoDeleteMinutes := none, enabled := true }

def c6Rules : List WhitelistRule :=
  [{ id := "r0", type := .extension, value := ".pdf", action := .autoDeleteAfter,
     autoDeleteMinutes := some 30, enabled := false },
   c6RuleNever,
   { id := "r2", type := .filename, value := "report.pdf",
     action := .autoDeleteAfter, autoDeleteMinutes := some 30, enabled := true }]

/-- A concrete world with an empty queue and the `c6Rules` whitelist. -/
def c6World : World :=
  { sampleWorld with
    queue := [], jobs := [], pendingConfirmations := [],
    settings := { showNotifications := false, whitelistRules := c6Rules } }

/-- A concrete watcher environment for the C6 witness. -/
def c6Env : StatEnv :=
  { stat := some (9, 50), now := 30000, newId := "n1",
    notifSupported := false, winVisible := false }

/-- Witness for C6 at the concrete world: the first enabled match is the
`never-delete` rule "r1" (the disabled "r0" is skipped), so the file is
whitelisted with only a refresh event. -/
theorem c6_witness :
    matchWhitelistRule (builtItem c6Env "C:/dl/report.pdf" 9 50).fileName
        c6World.settings.whitelistRules =
      c6World.settings.whitelistRules.find?
        (ruleHit
          (winExtname (builtItem c6Env "C:/dl/report.pdf" 9 50).fileName).toLower
          (winBasename (builtItem c6Env "C:/dl/report.pdf" 9 50).fileName).toLower) ∧
    (matchWhitelistRule (builtItem c6Env "C:/dl/report.pdf" 9 50).fileName
        c6World.settings.whitelistRules =
        some c6RuleNever →
      c6RuleNever.action = .neverDelete →
      getQueueItem (handleNewFile c6Env c6World "C:/dl/report.pdf").queue "n1" =
        some { builtItem c6Env "C:/dl/report.pdf" 9 50 with status := .whitelisted } ∧
      (handleNewFile c6Env c6World "C:/dl/report.pdf").events =
        c6World.events ++ [Event.queueUpdated]) ∧
    (matchWhitelistRule (builtItem c6Env "C:/dl/report.pdf" 9 50).fileName
        c6World.settings.whitelistRules =
        some c6RuleNever →
      c6RuleNever.action = .autoDeleteAfter →
      c6RuleNever.autoDeleteMinutes = some 30 →
      getQueueItem (handleNewFile c6Env c6World "C:/dl/report.pdf").queue "n1" =
        some { builtItem c6Env "C:/dl/report.pdf" 9 50 with
          status := .scheduled,
          scheduledFor :=
            some ((builtItem c6Env "C:/dl/report.pdf" 9 50).detectedAt +
              30 * 60 * 1000) } ∧
      (handleNewFile c6Env c6World "C:/dl/report.pdf").events =
        c6World.events ++ [Event.fileNew "n1"]) ∧
    (matchWhitelistRule (builtItem c6Env "C:/dl/report.pdf" 9 50).fileName
        c6World.settings.whitelistRules = none →
      getQueueItem (handleNewFile c6Env c6World "C:/dl/report.pdf").queue "n1" =
        some (builtItem c6Env "C:/dl/report.pdf" 9 50) ∧
      (builtItem c6Env "C:/dl/report.pdf" 9 50).status = .pending ∧
      (handleNewFile c6Env c6World "C:/dl/report.pdf").events =
        c6World.events ++ [Event.fileNew "n1"]) :=
  c6_whitelist_classification c6World "C:/dl/report.pdf" c6Env 9 50
    c6RuleNever 30 rfl rfl rfl

-- ─── Claim C7 ────────────────────────────────────────────────────────────────

/-- A queue item that reconciliation re-registers a job for: non-terminal
with a strictly future deadline. -/
def futurePred (now : Nat) (i : QueueItem) : Bool :=
  if reconcileSkip i then false
  else
    match i.scheduledFor with
    | none => false
    | some t => if now < t then true else false

/-- A queue item that reconciliation queues for immediate staggered
firing: non-terminal with a deadline not in the future. -/
def overduePred (now : Nat) (i : QueueItem) : Bool :=
  if reconcileSkip i then false
  else
    match i.scheduledFor with
    | none => false
    | some t => if now < t then false else true

theorem jobsRemove_of_lookup_none (jobs : List (String × Nat)) (itemId : String)
    (h : jobsLookup jobs itemId = none) : jobsRemove jobs itemId = jobs := by
  have hf : List.find? (fun e => e.1 == itemId) jobs = none := by
    cases hf : List.find? (fun e => e.1 == itemId) jobs with
    | none => rfl
    | some v => rw [jobsLookup, hf] at h; cases h
  rw [jobsRemove, List.filter_eq_self]
  intro e he
  have := List.find?_eq_none.mp hf e he
  simpa using this

theorem staggerMap_cons (d : Nat) (i : QueueItem) (l : List QueueItem) :
    (i :: l).enum.map (fun pr => (pr.2.id, d + 500 * pr.1)) =
      (i.id, d) :: l.enum.map (fun pr => (pr.2.id, (d + 500) + 500 * pr.1)) := by
  rw [List.enum_cons', List.map_cons, List.map_map]
  have hmap : List.map ((fun pr => (pr.2.id, d + 500 * pr.1)) ∘ Prod.map (· + 1) id)
      l.enum = List.map (fun pr => (pr.2.id, (d + 500) + 500 * pr.1)) l.enum := by
    apply List.map_congr_left
    rintro ⟨k, it⟩ _
    simp only [Function.comp_apply, Prod.map_apply, id_eq, Prod.mk.injEq]
    exact ⟨by trivial, by omega⟩
  rw [hmap]
  simp

theorem reconcileLoop_spec (now : Nat) (items : List QueueItem) :
    ∀ (d : Nat) (w : World),
    (∀ i ∈ items, jobsLookup w.jobs i.id = none) →
    (items.map (fun i => i.id)).Nodup →
    (reconcileLoop now d items w).overdueFirings =
      w.overdueFirings ++
        (items.filter (overduePred now)).enum.map
          (fun pr => (pr.2.id, d + 500 * pr.1)) ∧
    (reconcileLoop now d items w).jobs =
      ((items.filter (futurePred now)).map
        (fun i => (i.id, i.scheduledFor.getD 0))).reverse ++ w.jobs := by
  induction items with
  | nil =>
    intro d w _ _
    exact ⟨by simp [reconcileLoop], by simp [reconcileLoop]⟩
  | cons i rest ih =>
    intro d w hnone hnodup
    have hnodup' := (List.nodup_cons.mp hnodup).2
    have hid : i.id ∉ rest.map (fun j => j.id) := (List.nodup_cons.mp hnodup).1
    have hnoneRest : ∀ i' ∈ rest, jobsLookup w.jobs i'.id = none :=
      fun i' hi' => hnone i' (List.mem_cons_of_mem _ hi')
    by_cases hskip : reconcileSkip i = true
    · have hop : overduePred now i = false := by simp [overduePred, hskip]
      have hfp : futurePred now i = false := by simp [futurePred, hskip]
      have hstep : reconcileLoop now d (i :: rest) w =
          reconcileLoop now d rest w := by
        simp only [reconcileLoop, hskip, if_true]
      obtain ⟨ho, hj⟩ := ih d w hnoneRest hnodup'
      rw [hstep,
        List.filter_cons_of_neg (show ¬ overduePred now i = true by simp [hop]),
        List.filter_cons_of_neg (show ¬ futurePred now i = true by simp [hfp])]
      exact ⟨ho, hj⟩
    · have hskip' : reconcileSkip i = false := by simpa using hskip
      cases hsf : i.scheduledFor with
      | none =>
        have hop : overduePred now i = false := by simp [overduePred, hskip', hsf]
        have hfp : futurePred now i = false := by simp [futurePred, hskip', hsf]
        have hstep : reconcileLoop now d (i :: rest) w =
            reconcileLoop now d rest w := by
          simp only [reconcileLoop, hskip', Bool.false_eq_true, if_false, hsf]
        obtain ⟨ho, hj⟩ := ih d w hnoneRest hnodup'
        rw [hstep,
          List.filter_cons_of_neg (show ¬ overduePred now i = true by simp [hop]),
          List.filter_cons_of_neg (show ¬ futurePred now i = true by simp [hfp])]
        exact ⟨ho, hj⟩
      | some t =>
        by_cases hlt : now < t
        · -- future deadline: re-register the job
          have hop : overduePred now i = false := by
            simp [overduePred, hskip', hsf, hlt]
          have hfp : futurePred now i = true := by
            simp [futurePred, hskip', hsf, hlt]
          have hstep : reconcileLoop now d (i :: rest) w =
              reconcileLoop now d rest
                { w with jobs := (i.id, t) :: w.jobs } := by
            simp only [reconcileLoop, hskip', Bool.false_eq_true, if_false, hsf,
              hlt, if_true, scheduleJobAt,
              jobsRemove_of_lookup_none _ _ (hnone i (List.mem_cons_self _ _))]
          obtain ⟨ho, hj⟩ := ih d { w with jobs := (i.id, t) :: w.jobs }
            (by
              intro i' hi'
              have hne : (i.id == i'.id) = false := by
                simp only [beq_eq_false_iff_ne, ne_eq]
                intro hcontra
                exact hid (hcontra ▸ List.mem_map_of_mem (fun j => j.id) hi')
              show jobsLookup ((i.id, t) :: w.jobs) i'.id = none
              rw [jobsLookup, List.find?_cons_of_neg _ (by simp [hne])]
              exact hnoneRest i' hi')
            hnodup'
          rw [hstep,
            List.filter_cons_of_neg (show ¬ overduePred now i = true by simp [hop]),
            List.filter_cons_of_pos (show futurePred now i = true from hfp)]
          refine ⟨by rw [ho], ?_⟩
          rw [hj, List.map_cons, List.reverse_cons, List.append_assoc, hsf]
          rfl
        · -- overdue deadline: queue a staggered firing
          have hop : overduePred now i = true := by
            simp [overduePred, hskip', hsf, hlt]
          have hfp : futurePred now i = false := by
            simp [futurePred, hskip', hsf, hlt]
          have hstep : reconcileLoop now d (i :: rest) w =
              reconcileLoop now (d + 500) rest
                { w with overdueFirings := w.overdueFirings ++ [(i.id, d)] } := by
            simp only [reconcileLoop, hskip', Bool.false_eq_true, if_false, hsf,
              hlt, if_false]
          obtain ⟨ho, hj⟩ := ih (d + 500)
            { w with overdueFirings := w.overdueFirings ++ [(i.id, d)] }
            hnoneRest hnodup'
          rw [hstep,
            List.filter_cons_of_pos (show overduePred now i = true from hop),
            List.filter_cons_of_neg (show ¬ futurePred now i = true by simp [hfp])]
          refine ⟨?_, by rw [hj]⟩
          rw [ho]
          show w.overdueFirings ++ [(i.id, d)] ++
              (List.filter (overduePred now) rest).enum.map
                (fun pr => (pr.2.id, (d + 500) + 500 * pr.1)) =
            w.overdueFirings ++
              (i :: List.filter (overduePred now) rest).enum.map
                (fun pr => (pr.2.id, d + 500 * pr.1))
          rw [staggerMap_cons, List.append_assoc, List.singleton_append]

/-- Claim C7: on startup reconciliation over a queue with pairwise
distinct ids and no pre-existing jobs, the overdue firings are exactly
the non-terminal entities with a non-future deadline, in queue order,
with the k-th (0-based) fired after a delay of 500*k ms (successive
firings staggered 500 ms apart); and the job table afterwards holds
exactly one job per non-terminal entity with a future deadline, at that
deadline — terminal entities and entities with a null deadline get no job
and no firing. -/
theorem c7_startup_reconciliation (w : World) (now : Nat)
    (hjobs : w.jobs = []) (hover : w.overdueFirings = [])
    (hnodup : (w.queue.map (fun i => i.id)).Nodup) :
    (reconcileOnStartup w now).overdueFirings =
      (w.queue.filter (overduePred now)).enum.map
        (fun pr => (pr.2.id, 500 * pr.1)) ∧
    (reconcileOnStartup w now).jobs =
      ((w.queue.filter (futurePred now)).map
        (fun i => (i.id, i.scheduledFor.getD 0))).reverse := by
  obtain ⟨ho, hj⟩ := reconcileLoop_spec now w.queue 0 w
    (by intro i _; simp [hjobs, jobsLookup]) hnodup
  constructor
  · rw [reconcileOnStartup, ho, hover]
    simp
  · rw [reconcileOnStartup, hj, hjobs]
    simp

/-- A concrete world for the C7 witness: three overdue entities, one
future entity, one terminal entity and one never-delete entity. -/
def c7World : World :=
  { sampleWorld with
    queue :=
      [{ sampleItem with id := "o1", scheduledFor := some 100, status := .scheduled },
       { sampleItem with id := "o2", scheduledFor := some 200, status := .snoozed },
       { sampleItem with id := "o3", scheduledFor := some 300, status := .scheduled },
       { sampleItem with id := "f1", scheduledFor := some 99999, status := .scheduled },
       { sampleItem with id := "t1", scheduledFor := some 100, status := .deleted },
       { sampleItem with id := "n1", scheduledFor := none, status := .pending }],
    jobs := [], pendingConfirmations := [], overdueFirings := [] }

/-- Witness for C7 at the concrete world, reconciled at time 50000: the
three overdue entities are staggered 0/500/1000 ms apart and only the
future entity gets a job. -/
theorem c7_witness :
    (reconcileOnStartup c7World 50000).overdueFirings =
      (c7World.queue.filter (overduePred 50000)).enum.map
        (fun pr => (pr.2.id, 500 * pr.1)) ∧
    (reconcileOnStartup c7World 50000).jobs =
      ((c7World.queue.filter (futurePred 50000)).map
        (fun i => (i.id, i.scheduledFor.getD 0))).reverse :=
  c7_startup_reconciliation c7World 50000 rfl rfl (by decide)

end TempDLM
